import Mathlib

/-!
# Verification of the SILO weather-API client (silo_api.py)

Shallow embedding of the response-parsing / variable-normalization pipeline of
`SILOWeatherAPI` and proofs about its specified properties.

Modelling conventions:
* pandas cell values are `Option ℚ` (`none` is NaN); float arithmetic is
  modelled by exact rational arithmetic.
* dates are `ℤ` epoch day numbers (days since 1970-01-01, proleptic Gregorian);
  `daysFromCivil`/`civilFromDays` translate to calendar dates.
* a DataFrame is a list of column names, a date index, and rows of cells.
* every raise site of the Python code is a constructor of `SILOError`.
-/

namespace SILO

/-! ## Character/string utilities (ASCII models of the Python `str` methods) -/

/-- Function `lowerStr s` models Python `str.lower()` (ASCII range, which covers every
column name used by SILO). -/
def lowerStr (s : String) : String := ⟨s.data.map Char.toLower⟩

/-- Strip whitespace from both ends of a character list (Python `str.strip()`). -/
def trimList (l : List Char) : List Char :=
  ((l.dropWhile Char.isWhitespace).reverse.dropWhile Char.isWhitespace).reverse

/-- Python `str.strip()`. -/
def trimStr (s : String) : String := ⟨trimList s.data⟩

/-- Predicate `leadsList a b` is true when `a` is an initial segment of `b`. -/
def leadsList : List Char → List Char → Bool
  | [], _ => true
  | _ :: _, [] => false
  | a :: as, b :: bs => a == b && leadsList as bs

/-- Predicate `hasRun a b` is true when `a` occurs as a contiguous run inside `b`. -/
def hasRun (a : List Char) : List Char → Bool
  | [] => leadsList a []
  | b :: bs => leadsList a (b :: bs) || hasRun a bs

/-- Predicate `containsSub needle hay` models Python `needle in hay` on strings. -/
def containsSub (needle hay : String) : Bool := hasRun needle.data hay.data

/-- Split a character list at every separator satisfying `p`
(Python `str.split(sep)` semantics: empty fields are kept). -/
def splitPred (p : Char → Bool) : List Char → List (List Char)
  | [] => [[]]
  | c :: cs =>
    match splitPred p cs with
    | [] => [[c]]
    | h :: t => if p c then [] :: h :: t else (c :: h) :: t

/-- Whitespace tokenization, the model of `pd.read_csv(..., sep=r'\s+')`:
split on whitespace runs, dropping empty fields. -/
def splitWs (l : List Char) : List (List Char) :=
  (splitPred Char.isWhitespace l).filter (fun t => !t.isEmpty)

/-- Python `str.zfill w`: left-pad with `'0'` to width `w`, keeping a leading
sign in front of the padding. -/
def zfill (w : Nat) (s : String) : String :=
  let l := s.data
  if l.length ≥ w then s
  else
    match l with
    | '-' :: rest => ⟨'-' :: List.replicate (w - l.length) '0' ++ rest⟩
    | '+' :: rest => ⟨'+' :: List.replicate (w - l.length) '0' ++ rest⟩
    | _ => ⟨List.replicate (w - l.length) '0' ++ l⟩

/-- Python `str.rjust w` with spaces, which is also what a `{x:>6s}` or `{x:4d}`
format field does once the text is rendered. -/
def rjust (w : Nat) (s : String) : String :=
  if s.length ≥ w then s else ⟨List.replicate (w - s.length) ' ' ++ s.data⟩

/-- Decimal digits of a natural number. -/
def natDigits : Nat → List Char
  | n => (toString n).data

/-- Python `str(int)`. -/
def intStr (n : ℤ) : String := toString n

/-- Python `f"{n:wd}"`: decimal integer right-justified in `w` columns. -/
def pyIntFmt (w : Nat) (n : ℤ) : String := rjust w (intStr n)

/-! ## Numeric coercion and rendering -/

/-- Value of a list of decimal digits. -/
def digitsToNat (l : List Char) : Nat :=
  l.foldl (fun a c => 10 * a + (c.toNat - '0'.toNat)) 0

/-- Parse an unsigned decimal literal `digits [. digits]` (at least one digit). -/
def parseUnsignedDec (cs : List Char) : Option ℚ :=
  let intPart := cs.takeWhile Char.isDigit
  let rest := cs.drop intPart.length
  match rest with
  | [] => if intPart.isEmpty then none else some (digitsToNat intPart : ℚ)
  | '.' :: frac =>
    if frac.all Char.isDigit && !(intPart.isEmpty && frac.isEmpty) then
      some ((digitsToNat intPart : ℚ) + (digitsToNat frac : ℚ) / (10 ^ frac.length : ℚ))
    else none
  | _ => none

/-- Model of `pd.to_numeric(tok, errors='coerce')` on one token: a decimal
number with optional sign, or `none` (NaN) when the token is not numeric.
Exponent notation and `inf` are accepted by pandas but never occur in SILO
payloads and are out of model. -/
def pyToNumeric (s : String) : Option ℚ :=
  let t := trimList s.data
  match t with
  | '-' :: rest => (parseUnsignedDec rest).map (fun q => -q)
  | '+' :: rest => parseUnsignedDec rest
  | _ => parseUnsignedDec t

/-- Least power of ten clearing the denominator of `x` (searched up to 40). -/
def decPow (x : ℚ) : Option Nat :=
  (List.range 40).find? (fun k => (x * (10 ^ k : ℚ)).den = 1)

/-- Exact decimal rendering of `x` with `k` fractional digits (`k > 0`). -/
def decimalStr (x : ℚ) (k : Nat) : String :=
  let n := (x * (10 ^ k : ℚ)).num
  let sign := if n < 0 then "-" else ""
  let l := (toString n.natAbs).data
  let padded := List.replicate (k + 1 - l.length) '0' ++ l
  sign ++ String.mk (padded.take (padded.length - k)) ++ "." ++
    String.mk (padded.drop (padded.length - k))

/-- Model of pandas `Series.astype(str)` on one numeric cell.  Integer cells
render as plain integers (matching an `int64` column), NaN renders as `"nan"`,
and terminating decimals render exactly (a float column of values parsed from
decimal text round-trips to the same shortest decimal).  Rationals with a
non-decimal denominator cannot arise from parsed data; they get a fallback
fraction rendering so the function stays total. -/
def pyCellStr (v : Option ℚ) : String :=
  match v with
  | none => "nan"
  | some x =>
    if x.den = 1 then intStr x.num
    else
      match decPow x with
      | some k => decimalStr x k
      | none => intStr x.num ++ "/" ++ toString x.den

/-- Round to the nearest integer, ties to even (the rounding used when Python
formats a float with `%.1f`, modelled on exact rationals). -/
def roundHalfEven (q : ℚ) : ℤ :=
  let f := ⌊q⌋
  let r := q - (f : ℚ)
  if r < 1 / 2 then f
  else if 1 / 2 < r then f + 1
  else if f % 2 = 0 then f else f + 1

/-- Model of Python `f"{x:6.1f}"`: one fractional digit, right-justified in six
columns.  (The sign of a negative value that rounds to zero — Python's `-0.0` —
is a float artifact outside the rational model.) -/
def pyFmt61 (x : ℚ) : String :=
  let n := roundHalfEven (x * 10)
  let sign := if n < 0 then "-" else ""
  let a := n.natAbs
  rjust 6 (sign ++ toString (a / 10) ++ "." ++ toString (a % 10))

/-! ## Calendar arithmetic (proleptic Gregorian, epoch 1970-01-01) -/

/-- Days since 1970-01-01 of the civil date `y-m-d`. -/
def daysFromCivil (y : ℤ) (m d : Nat) : ℤ :=
  let y' : ℤ := if m ≤ 2 then y - 1 else y
  let era : ℤ := Int.fdiv y' 400
  let yoe : Nat := (y' - era * 400).toNat
  let mp : Nat := if 2 < m then m - 3 else m + 9
  let doy : Nat := (153 * mp + 2) / 5 + d - 1
  let doe : Nat := yoe * 365 + yoe / 4 - yoe / 100 + doy
  era * 146097 + (doe : ℤ) - 719468

/-- Civil date `(y, m, d)` of a day number. -/
def civilFromDays (z : ℤ) : ℤ × Nat × Nat :=
  let z' := z + 719468
  let era : ℤ := Int.fdiv z' 146097
  let doe : Nat := (z' - era * 146097).toNat
  let yoe : Nat := (doe - doe / 1460 + doe / 36524 - doe / 146096) / 365
  let y : ℤ := (yoe : ℤ) + era * 400
  let doy : Nat := doe - (365 * yoe + yoe / 4 - yoe / 100)
  let mp : Nat := (5 * doy + 2) / 153
  let d : Nat := doy - (153 * mp + 2) / 5 + 1
  let m : Nat := if mp < 10 then mp + 3 else mp - 9
  (if m ≤ 2 then y + 1 else y, m, d)

/-- Calendar year of a day number (`date.year`). -/
def yearOf (z : ℤ) : ℤ := (civilFromDays z).1

/-- Ordinal day of year, 1–366 (`DatetimeIndex.dayofyear`). -/
def doyOf (z : ℤ) : ℤ := z - daysFromCivil (yearOf z) 1 1 + 1

/-- Gregorian leap-year rule. -/
def isLeap (y : ℤ) : Bool := y % 4 == 0 && (y % 100 != 0 || y % 400 == 0)

/-- Length of month `m` of year `y`. -/
def daysInMonth (y : ℤ) (m : Nat) : Nat :=
  match m with
  | 1 => 31 | 2 => if isLeap y then 29 else 28 | 3 => 31 | 4 => 30
  | 5 => 31 | 6 => 30 | 7 => 31 | 8 => 31 | 9 => 30 | 10 => 31
  | 11 => 30 | 12 => 31 | _ => 0

/-- Model of `pd.to_datetime(tok, format='%Y%m%d', errors='coerce')` on one
token: exactly eight digits forming a valid calendar date, else `none` (NaT).
The `pd.Timestamp` year range (1677–2262) is not modelled; SILO data is
bounded to 1889–present upstream. -/
def strictYYYYMMDD (s : String) : Option ℤ :=
  let cs := s.data
  if cs.length == 8 && cs.all Char.isDigit then
    let y : ℤ := (digitsToNat (cs.take 4) : ℤ)
    let m := digitsToNat ((cs.drop 4).take 2)
    let d := digitsToNat (cs.drop 6)
    if 1 ≤ m && m ≤ 12 && 1 ≤ d && d ≤ daysInMonth y m then
      some (daysFromCivil y m d)
    else none
  else none

/-- Modelled from the spec: the "permissive date parser" of the retry step is
`pd.to_datetime(col, errors='coerce')`, a library heuristic parser whose code
is not part of this repository.  Modelled as a subset: it accepts everything
the strict format accepts plus ISO `YYYY-MM-DD` dates. -/
def permissiveDate (s : String) : Option ℤ :=
  match strictYYYYMMDD s with
  | some z => some z
  | none =>
    let cs := trimList s.data
    match splitPred (· == '-') cs with
    | [ys, ms, ds] =>
      if ys.length == 4 && ys.all Char.isDigit &&
         0 < ms.length && ms.length ≤ 2 && ms.all Char.isDigit &&
         0 < ds.length && ds.length ≤ 2 && ds.all Char.isDigit then
        let y : ℤ := (digitsToNat ys : ℤ)
        let m := digitsToNat ms
        let d := digitsToNat ds
        if 1 ≤ m && m ≤ 12 && 1 ≤ d && d ≤ daysInMonth y m then
          some (daysFromCivil y m d)
        else none
      else none
    | _ => none

/-! ## Data model -/

/-- Error type: one constructor per raise site of the pipeline.
`missingVariable` carries the diagnostic payload of the message
`"Required variable '<v>' not found … Tried: <cands>. Available columns: <cols>"`. -/
inductive SILOError where
  | invalidCoordinates : SILOError
  | invalidDateRange : SILOError
  | malformedResponse : String → SILOError
  | missingVariable : String → List String → List String → SILOError
  | missingVariables : List String → SILOError
  | missingColumns : SILOError
  deriving DecidableEq, Repr

instance {ε α : Type} [DecidableEq ε] [DecidableEq α] : DecidableEq (Except ε α) :=
  fun x y =>
    match x, y with
    | .ok a, .ok b =>
      if h : a = b then .isTrue (h ▸ rfl) else .isFalse (fun he => h (Except.ok.inj he))
    | .error a, .error b =>
      if h : a = b then .isTrue (h ▸ rfl) else .isFalse (fun he => h (Except.error.inj he))
    | .ok _, .error _ => .isFalse (fun he => Except.noConfusion he)
    | .error _, .ok _ => .isFalse (fun he => Except.noConfusion he)

/-- A date-indexed DataFrame: column names, date index (epoch day numbers) and
one row of numeric cells per index entry.  `none` is NaN. -/
structure DF where
  cols : List String
  index : List ℤ
  rows : List (List (Option ℚ))
  deriving DecidableEq, Repr

/-- Column `df[c]` as a list of cells: looks up the first column named `c` and reads
that position from every row. -/
def colValues (df : DF) (c : String) : List (Option ℚ) :=
  match df.cols.findIdx? (fun c' => c' == c) with
  | some j => df.rows.map (fun r => r.getD j none)
  | none => []

/-- A row of the normalized series: the seven canonical variables plus the
provenance code.  The code cell is `none` where pandas reindexing left NaN. -/
structure NormRow where
  daily_rain : Option ℚ
  max_temp : Option ℚ
  min_temp : Option ℚ
  vp : Option ℚ
  radiation : Option ℚ
  et_short_crop : Option ℚ
  evap_pan : Option ℚ
  code : Option String
  deriving DecidableEq, Repr

/-- The all-NaN row produced for dates inserted by reindexing. -/
def nullRow : NormRow :=
  { daily_rain := none, max_temp := none, min_temp := none, vp := none
    radiation := none, et_short_crop := none, evap_pan := none, code := none }

instance : Inhabited NormRow := ⟨nullRow⟩

/-- The normalized climate series: a date index plus one `NormRow` per date. -/
structure NormSeries where
  index : List ℤ
  rows : List NormRow
  deriving DecidableEq, Repr

/-! ## Static configuration (`FAO56_MAPPING`, `DAILY_MAPPING`, …) -/

inductive Fmt where
  | fao56
  | daily
  deriving DecidableEq, Repr

/-- Mapping `FAO56_MAPPING`, in declaration order. -/
def FAO56_MAPPING : List (String × String) :=
  [("Date", "date"), ("Rain", "daily_rain"), ("Rainfall", "daily_rain"),
   ("T.Max", "max_temp"), ("T.Min", "min_temp"), ("VP", "vp"),
   ("Radn", "radiation"), ("Radiation", "radiation"),
   ("FAO56", "et_short_crop"), ("Evap", "evap_pan"), ("Evaporation", "evap_pan")]

/-- Mapping `DAILY_MAPPING`, in declaration order. -/
def DAILY_MAPPING : List (String × String) :=
  [("Date", "date"), ("Rain", "daily_rain"), ("Tmax", "max_temp"),
   ("Tmin", "min_temp"), ("VP", "vp"), ("Radiation", "radiation"),
   ("FAO56", "et_short_crop"), ("Evap", "evap_pan")]

def mappingFor : Fmt → List (String × String)
  | .fao56 => FAO56_MAPPING
  | .daily => DAILY_MAPPING

/-- List `REQUIRED_VARIABLES`, in order. -/
def REQUIRED_VARIABLES : List String :=
  ["daily_rain", "max_temp", "min_temp", "vp", "radiation",
   "et_short_crop", "evap_pan"]

/-- The float literal `-99.9` as an exact rational, written in lowest terms so
that its fields are kernel-computable literals (see `neg99_9_eq`). -/
def neg99_9 : ℚ := ⟨-999, 10, by norm_num, by decide⟩


/-- Sentinels `MISSING_CODES = [-9999, -99.9, -999, -99]`. -/
def MISSING_CODES : List ℚ := [-9999, neg99_9, -999, -99]

/-! ## Column resolution (`extract_variables`, lines 311–336) -/

/-- The candidate SILO names for one output variable: the reverse mapping
`output_to_silo[v]`, built by iterating the mapping in declaration order and
skipping the `'Date'` entry. -/
def possibleNames (m : List (String × String)) (v : String) : List String :=
  (m.filter (fun p => p.1 != "Date" && p.2 == v)).map (fun p => p.1)

/-- The per-pair test of the source: strip/lowercase both names, then
`col_lower == silo_lower or silo_lower in col_lower or col_lower in silo_lower`. -/
def matchB (col silo : String) : Bool :=
  let cl := (lowerStr (trimStr col)).data
  let sl := (trimStr (lowerStr silo)).data
  cl == sl || hasRun sl cl || hasRun cl sl

/-- The search loop of the source: raw columns outer, candidate names inner,
first matching raw column wins. -/
def findCol (cols : List String) (cands : List String) : Option String :=
  cols.find? (fun col => cands.any (fun silo => matchB col silo))

/-- The same per-pair test written the way the spec phrases it:
case-insensitive exact match first, then substring match in either direction. -/
def matchSpecB (col silo : String) : Bool :=
  let cl := (lowerStr (trimStr col)).data
  let sl := (trimStr (lowerStr silo)).data
  if cl == sl then true else hasRun sl cl || hasRun cl sl

/-- The search described by the spec sentence, for comparison with `findCol`. -/
def findColSpec (cols : List String) (cands : List String) : Option String :=
  cols.find? (fun col => cands.any (fun silo => matchSpecB col silo))

/-- The resolution loop over output variables: resolves each variable in
order, skipping variables with no mapping entry, and raises
`MissingVariableError` with full diagnostics at the first unresolvable one. -/
def resolveList (cols : List String) (m : List (String × String)) :
    List String → Except SILOError (List (String × String))
  | [] => .ok []
  | v :: vs =>
    let cands := possibleNames m v
    if cands.isEmpty then resolveList cols m vs
    else
      match findCol cols cands with
      | some c =>
        match resolveList cols m vs with
        | .ok ps => .ok ((v, c) :: ps)
        | .error e => .error e
      | none => .error (.missingVariable v cands cols)

/-! ## Sentinel replacement (`extract_variables`, lines 338–345) -/

/-- One `Series.replace(code, np.nan)` step for a single sentinel. -/
def replaceOne (code : ℚ) (v : Option ℚ) : Option ℚ :=
  match v with
  | some x => if x == code then none else some x
  | none => none

/-- The loop `for code in MISSING_CODES: data = data.replace(code, nan)`,
applied cell-wise to a column. -/
def applySentinels (l : List (Option ℚ)) : List (Option ℚ) :=
  MISSING_CODES.foldl (fun acc code => acc.map (replaceOne code)) l

/-- The effect of the whole sentinel pass on a single cell. -/
def replaceSentinels (v : Option ℚ) : Option ℚ :=
  match v with
  | some x => if x ∈ MISSING_CODES then none else some x
  | none => none

/-! ## Building the normalized series (`extract_variables`, lines 338–378) -/

/-- The cells assigned to output variable `v`: the resolved raw column with
the sentinel pass applied. -/
def colFor (df : DF) (pairs : List (String × String)) (v : String) :
    List (Option ℚ) :=
  match pairs.find? (fun p => p.1 == v) with
  | some p => applySentinels (colValues df p.2)
  | none => []

/-- The raw column used for quality codes: first column whose lowercase name
contains `"code"`. -/
def codeColumn (cols : List String) : Option String :=
  cols.find? (fun c => containsSub "code" (lowerStr c))

/-- The `code` output column, before reindexing: the zero-filled string form
of the code column when present, else the constant default `"222222"`. -/
def codeVals (df : DF) : List (Option String) :=
  match codeColumn df.cols with
  | some c => (colValues df c).map (fun v => some (zfill 6 (pyCellStr v)))
  | none => df.index.map (fun _ => some "222222")

/-- Row `i` of the output table as assembled column-by-column. -/
def builtRow (df : DF) (pairs : List (String × String)) (i : Nat) : NormRow :=
  { daily_rain := (colFor df pairs "daily_rain").getD i none
    max_temp := (colFor df pairs "max_temp").getD i none
    min_temp := (colFor df pairs "min_temp").getD i none
    vp := (colFor df pairs "vp").getD i none
    radiation := (colFor df pairs "radiation").getD i none
    et_short_crop := (colFor df pairs "et_short_crop").getD i none
    evap_pan := (colFor df pairs "evap_pan").getD i none
    code := (codeVals df).getD i none }

def builtRows (df : DF) (pairs : List (String × String)) : List NormRow :=
  (List.range df.index.length).map (builtRow df pairs)

/-- Model of `pd.date_range(lo, hi, freq='D')` as epoch day numbers. -/
def fullRange (lo hi : ℤ) : List ℤ :=
  (List.range ((hi - lo).toNat + 1)).map (fun (k : Nat) => lo + (k : ℤ))

/-- The `reindex` row lookup: the row labelled `d`, or the all-NaN row when the
label is absent.  (pandas requires the index to be duplicate-free here.) -/
def lookupRow (df : DF) (pairs : List (String × String)) (d : ℤ) : NormRow :=
  match (df.index.zip (builtRows df pairs)).find? (fun p => p.1 == d) with
  | some p => p.2
  | none => nullRow

/-- Assemble output columns, then reindex to the contiguous daily calendar
spanning the raw table's min/max date (skipped for an empty table). -/
def buildSeries (df : DF) (pairs : List (String × String)) : NormSeries :=
  if df.index.isEmpty then
    { index := df.index, rows := builtRows df pairs }
  else
    match df.index.min?, df.index.max? with
    | some lo, some hi =>
      let full := fullRange lo hi
      { index := full, rows := full.map (lookupRow df pairs) }
    | _, _ => { index := df.index, rows := builtRows df pairs }

/-- Model of `extract_variables`: resolve the required variables, fail with diagnostics
when one is missing, apply the sentinel pass, attach codes, reindex. -/
def extractVariables (df : DF) (fmt : Fmt) : Except SILOError NormSeries :=
  match resolveList df.cols (mappingFor fmt) REQUIRED_VARIABLES with
  | .error e => .error e
  | .ok pairs =>
    let missing := REQUIRED_VARIABLES.filter
      (fun v => (pairs.find? (fun p => p.1 == v)).isNone)
    if missing.isEmpty then .ok (buildSeries df pairs)
    else .error (.missingVariables missing)

/-- The row of a normalized series at date label `d` (all-NaN if absent). -/
def rowAt (s : NormSeries) (d : ℤ) : NormRow :=
  match (s.index.zip s.rows).find? (fun p => p.1 == d) with
  | some p => p.2
  | none => nullRow

/-- Field access by canonical variable name. -/
def getVar (r : NormRow) (v : String) : Option ℚ :=
  if v == "daily_rain" then r.daily_rain
  else if v == "max_temp" then r.max_temp
  else if v == "min_temp" then r.min_temp
  else if v == "vp" then r.vp
  else if v == "radiation" then r.radiation
  else if v == "et_short_crop" then r.et_short_crop
  else if v == "evap_pan" then r.evap_pan
  else none

/-! ## Evaporation shift (`shift_evaporation`, lines 443–470) -/

/-- Model of `Series.shift(-1)`: every value moves up one position, the last becomes NaN. -/
def shiftNeg1 : List (Option ℚ) → List (Option ℚ)
  | [] => []
  | _ :: xs => xs ++ [none]

/-- Model of `Series.ffill()` with carried state `c`: each NaN takes the last non-NaN
value seen so far. -/
def ffillAux (c : Option ℚ) : List (Option ℚ) → List (Option ℚ)
  | [] => []
  | x :: xs =>
    let y := match x with | some v => some v | none => c
    y :: ffillAux y xs

/-- Model of `shift_evaporation`: shift `evap_pan` by −1, then — whenever any NaN is
present — forward-fill the whole column (the source comments assume the only
NaN is the final day's). -/
def shiftEvaporation (s : NormSeries) : NormSeries :=
  let e := s.rows.map (fun r => r.evap_pan)
  let e1 := shiftNeg1 e
  let e2 := if e1.any (fun v => v.isNone) then ffillAux none e1 else e1
  { index := s.index
    rows := List.zipWith (fun r v => { r with evap_pan := v }) s.rows e2 }

/-! ## TAV (`calculate_tav`, lines 380–398) -/

/-- Model of `Series.mean()`: NaNs are skipped; the mean of no values is NaN. -/
def seriesMean (l : List (Option ℚ)) : Option ℚ :=
  let vs := l.filterMap id
  if vs.isEmpty then none else some (vs.sum / (vs.length : ℚ))

/-- Series addition: NaN propagates. -/
def addOpt (a b : Option ℚ) : Option ℚ :=
  match a, b with
  | some x, some y => some (x + y)
  | _, _ => none

/-- Model of `calculate_tav`: `((max_temp + min_temp) / 2).mean()`, with a
`MissingColumns` failure when either column is absent. -/
def calculate_tav (df : DF) : Except SILOError (Option ℚ) :=
  if "max_temp" ∈ df.cols ∧ "min_temp" ∈ df.cols then
    let daily := (List.zipWith addOpt (colValues df "max_temp")
        (colValues df "min_temp")).map (Option.map (fun x => x / 2))
    .ok (seriesMean daily)
  else .error .missingColumns

/-- The spec's phrasing of TAV: the mean over exactly the days where both
temperatures are present of `(max + min) / 2`. -/
def tavSpec (df : DF) : Option ℚ :=
  let vs := ((colValues df "max_temp").zip (colValues df "min_temp")).filterMap
    (fun p => match p with
      | (some a, some b) => some ((a + b) / 2)
      | _ => none)
  if vs.isEmpty then none else some (vs.sum / (vs.length : ℚ))

/-! ## Response parsing (`parse_silo_response`, lines 194–282) -/

/-- The named-header test of the first boundary scan: a date-like token plus
one of the known temperature/rainfall synonyms. -/
def headerPred (line : String) : Bool :=
  (containsSub "Date" line || containsSub "date" (lowerStr line)) &&
  ["Rainfall", "Rain", "T.Max", "Tmax", "T.Min", "Tmin"].any
    (fun c => containsSub c line)

/-- The fallback test: a comma line with more than five comma fields whose
first field is an eight-digit number. -/
def dataLinePred (line : String) : Bool :=
  containsSub "," line &&
  (let fields := splitPred (fun c => c == ',') line.data
   decide (5 < fields.length) &&
   (let fv := trimList (fields.getD 0 [])
    fv.length == 8 && fv.all Char.isDigit))

/-- The boundary index computed by the two scans, exactly as the source does:
`data_start_idx` starts at 0, the named scan may set it, and the fallback
(consulted only when it is still 0) may set it to one before a data line. -/
def boundaryIdx (lines : List String) : ℤ :=
  let i1 : ℤ := match lines.findIdx? headerPred with
    | some i => (i : ℤ)
    | none => 0
  if i1 = 0 then
    match lines.findIdx? dataLinePred with
    | some i => (i : ℤ) - 1
    | none => 0
  else i1

/-- The boundary decision: an index that is still 0 is reported as
"Could not find data start in SILO response". -/
def findDataStart (lines : List String) : Except SILOError ℤ :=
  let idx := boundaryIdx lines
  if idx = 0 then
    .error (.malformedResponse "Could not find data start in SILO response")
  else .ok idx

/-- Python `l[idx:]` including the negative-index convention. -/
def pySliceFrom {α : Type} (idx : ℤ) (l : List α) : List α :=
  if 0 ≤ idx then l.drop idx.toNat else l.drop (l.length - (-idx).toNat)

/-- Stable ascending sort by date label (`DataFrame.sort_index()`). -/
def sortByDate {α : Type} (l : List (ℤ × α)) : List (ℤ × α) :=
  List.insertionSort (fun a b => a.1 ≤ b.1) l

/-- The date step of the parser as the source executes it: every token is
parsed with the strict `%Y%m%d` format under `errors='coerce'`, rows whose
token fails become NaT and are dropped, and the survivors are sorted by date.
The source's `except` fallback to a permissive `pd.to_datetime` is never
reached, because `errors='coerce'` converts per-value failures to NaT instead
of raising. -/
def parseDatePairs {α : Type} (toks : List String) (rows : List α) :
    List (ℤ × α) :=
  sortByDate ((toks.zip rows).filterMap
    (fun p => (strictYYYYMMDD p.1).map (fun d => (d, p.2))))

/-- The date step as the spec describes it: each value failing the strict
format is retried with the permissive parser, and only rows failing both are
dropped. -/
def parseDatePairsClaim {α : Type} (toks : List String) (rows : List α) :
    List (ℤ × α) :=
  sortByDate ((toks.zip rows).filterMap
    (fun p =>
      (match strictYYYYMMDD p.1 with
        | some d => some d
        | none => permissiveDate p.1).map (fun d => (d, p.2))))

/-- Model of `parse_silo_response`: find the boundary, tokenize whitespace-delimited
lines from it, strip column names, coerce cells to numeric, locate the date
column by substring, parse dates strictly, drop invalid-date rows, sort.
(The numeric coercion skips columns named `date`/`day`/`date2` in the source;
the values of `day`/`date2` passthrough columns are never read downstream, so
all non-index cells are modelled as numeric.) -/
def parseSiloResponse (text : String) : Except SILOError DF :=
  let lines := (splitPred (fun c => c == '\n') (trimList text.data)).map String.mk
  match findDataStart lines with
  | .error e => .error e
  | .ok idx =>
    match pySliceFrom idx lines with
    | [] => .error (.malformedResponse "Failed to parse SILO CSV response")
    | header :: body =>
      let cols0 := (splitWs header.data).map (fun t => trimStr (String.mk t))
      let rowsTok : List (List String) :=
        body.map (fun line => (splitWs line.data).map String.mk)
      match cols0.findIdx? (fun c => containsSub "date" (lowerStr c)) with
      | none => .error (.malformedResponse "Could not find date column in SILO response")
      | some dj =>
        let dateToks := rowsTok.map (fun r => r.getD dj "")
        let cells := rowsTok.map (fun r => (r.eraseIdx dj).map pyToNumeric)
        let sorted := parseDatePairs dateToks cells
        .ok { cols := cols0.eraseIdx dj
              index := sorted.map (fun p => p.1)
              rows := sorted.map (fun p => p.2) }

/-! ## Agronomic (.met) emitter (`export_to_met`, lines 554–599) -/

/-- A numeric cell of a data row: `f"{x:6.1f}"` when present, the literal
6-character `"   NaN"` when NaN. -/
def fmtNum (v : Option ℚ) : String :=
  match v with
  | some x => pyFmt61 x
  | none => "   NaN"

/-- Python `int(q)`: truncation toward zero. -/
def intTrunc (q : ℚ) : ℤ := Int.tdiv q.num (q.den : ℤ)

/-- One fixed-width data row of the .met file, exactly as the source's
f-string writes it: `year(4) day(4)` then six numeric fields right-justified
in 6 columns, then the code right-justified in 7, space-separated. -/
def mkMetRow (year : ℤ) (day : Option ℚ)
    (radn maxt mint rain evap vp : Option ℚ) (code : Option String) : String :=
  let d : ℤ := match day with | some q => intTrunc q | none => 1
  pyIntFmt 4 year ++ " " ++ pyIntFmt 4 d ++ " " ++
  rjust 6 (fmtNum radn) ++ " " ++ rjust 6 (fmtNum maxt) ++ " " ++
  rjust 6 (fmtNum mint) ++ " " ++ rjust 6 (fmtNum rain) ++ " " ++
  rjust 6 (fmtNum evap) ++ " " ++ rjust 6 (fmtNum vp) ++ " " ++
  rjust 7 (match code with | some cs => zfill 6 cs | none => "222222") ++ "\n"

/-- A numeric field as the spec lays it out: `6.1f` when present, the literal
token `NaN` right-aligned in the 6-character field width when null. -/
def specNumField (v : Option ℚ) : String :=
  match v with
  | some x => pyFmt61 x
  | none => rjust 6 "NaN"

/-- The data-row layout exactly as the spec sentence states it, for comparison
with `mkMetRow`. -/
def mkMetRowSpec (year : ℤ) (day : Option ℚ)
    (radn maxt mint rain evap vp : Option ℚ) (code : Option String) : String :=
  let d : ℤ := match day with | some q => intTrunc q | none => 1
  pyIntFmt 4 year ++ " " ++ pyIntFmt 4 d ++ " " ++
  specNumField radn ++ " " ++ specNumField maxt ++ " " ++
  specNumField mint ++ " " ++ specNumField rain ++ " " ++
  specNumField evap ++ " " ++ specNumField vp ++ " " ++
  rjust 7 (match code with | some cs => zfill 6 cs | none => "222222") ++ "\n"

/-- The data section written by `export_to_met`: the evaporation shift is
applied, each date contributes its calendar year and leap-aware day-of-year,
and one `mkMetRow` line is emitted per date. -/
def exportToMetRows (s : NormSeries) : List String :=
  let t := shiftEvaporation s
  (t.index.zip t.rows).map (fun p =>
    mkMetRow (yearOf p.1) (some ((doyOf p.1 : ℚ)))
      p.2.radiation p.2.max_temp p.2.min_temp p.2.daily_rain
      p.2.evap_pan p.2.vp p.2.code)

/-! ## Validation and the fetch pipeline (`get_silo_data`, lines 129–192) -/

def LAT_MIN : ℚ := -44
def LAT_MAX : ℚ := -10
def LON_MIN : ℚ := 112
def LON_MAX : ℚ := 154

/-- Model of `validate_coordinates`. -/
def validateCoordinates (lat lon : ℚ) : Except SILOError Bool :=
  if ¬ (LAT_MIN ≤ lat ∧ lat ≤ LAT_MAX) then .error .invalidCoordinates
  else if ¬ (LON_MIN ≤ lon ∧ lon ≤ LON_MAX) then .error .invalidCoordinates
  else .ok true

/-- The date-range checks of `get_silo_data` (two `raise ValueError` sites,
modelled by the one typed error the spec names for them). -/
def validateDateRange (sy ey cur : ℤ) : Except SILOError Unit :=
  if sy < 1889 ∨ cur < ey then .error .invalidDateRange
  else if ey < sy then .error .invalidDateRange
  else .ok ()

/-- The core pipeline of `get_silo_data` on an already-fetched response text:
validate coordinates, validate the date range, parse, normalize.  The HTTP
transport and authentication checks between validation and parsing are
external collaborators and out of model. -/
def getSiloData (lat lon : ℚ) (sy ey cur : ℤ) (fmt : Fmt) (text : String) :
    Except SILOError NormSeries :=
  match validateCoordinates lat lon with
  | .error e => .error e
  | .ok _ =>
    match validateDateRange sy ey cur with
    | .error e => .error e
    | .ok _ =>
      match parseSiloResponse text with
      | .error e => .error e
      | .ok df => extractVariables df fmt

/-! ## Concrete fixtures used by witnesses, counterexamples and scenarios -/

/-- The 3-day TAV scenario of the spec: `max_temp=[30,32,31]`, `min_temp=[20,18,19]`. -/
def tavScenarioDF : DF :=
  { cols := ["max_temp", "min_temp"]
    index := [0, 1, 2]
    rows := [[some 30, some 20], [some 32, some 18], [some 31, some 19]] }

/-- A raw FAO56 table whose dates have a one-day gap (day 1 is absent). -/
def gapDF : DF :=
  { cols := ["Rain", "T.Max", "T.Min", "VP", "Radn", "FAO56", "Evap"]
    index := [0, 2]
    rows := [[some 1, some 30, some 20, some 10, some 15, some 5, some 7],
             [some 2, some 31, some 21, some 11, some 16, some 6, some 8]] }

/-- The normalized series produced from `gapDF`. -/
def gapSeries : NormSeries :=
  match extractVariables gapDF .fao56 with
  | .ok s => s
  | .error _ => { index := [], rows := [] }

/-- A raw table whose `Code` column holds a seven-digit value. -/
def bigCodeDF : DF :=
  { cols := ["Rain", "T.Max", "T.Min", "VP", "Radn", "FAO56", "Evap", "Code"]
    index := [0]
    rows := [[some 1, some 30, some 20, some 10, some 15, some 5, some 7,
              some 1234567]] }

/-- The normalized series produced from `bigCodeDF`. -/
def bigCodeSeries : NormSeries :=
  match extractVariables bigCodeDF .fao56 with
  | .ok s => s
  | .error _ => { index := [], rows := [] }

/-- A raw table carrying two missing-value sentinels (`-9999` in `Rain`,
`-99.9` in `T.Max`). -/
def sentinelDF : DF :=
  { cols := ["Rain", "T.Max", "T.Min", "VP", "Radn", "FAO56", "Evap"]
    index := [0]
    rows := [[some (-9999), some neg99_9, some 20, some 10,
              some 15, some 5, some 7]] }

/-- The normalized series produced from `sentinelDF`. -/
def sentinelSeries : NormSeries :=
  match extractVariables sentinelDF .fao56 with
  | .ok s => s
  | .error _ => { index := [], rows := [] }

/-- A raw table missing every temperature column. -/
def missingColDF : DF := { cols := ["Rain"], index := [0], rows := [[some 1]] }

/-- A response whose named header is the very first line and whose third line
qualifies for the comma fallback. -/
def headerZeroLines : List String :=
  ["Date Rain T.Max", "20200101 1.0 2.0", "20200102,1,2,3,4,5,6"]

/-- A response whose named header is the very first line and whose data is
whitespace-delimited (no comma fallback possible). -/
def headerZeroNoCommaLines : List String :=
  ["Date Rain T.Max", "20200101 1.0 2.0"]

/-- Date tokens whose second entry only the permissive parser accepts. -/
def mixedDateToks : List String := ["20200101", "2020-01-02"]

/-- The single-row all-null normalized series of the emitter scenario. -/
def allNullSeries : NormSeries :=
  { index := [0], rows := [{ nullRow with code := some "222222" }] }

/-- A series with one evap_pan row of `nullRow`. -/
def evapSeries (evaps : List (Option ℚ)) : NormSeries :=
  { index := (List.range evaps.length).map (fun n => (n : ℤ))
    rows := evaps.map (fun e => { nullRow with evap_pan := e }) }

/-- Evaporation series with an interior NaN: `[1, 2, NaN, 4]`. -/
def shiftCexSeries : NormSeries := evapSeries [some 1, some 2, none, some 4]

/-- Evaporation series without interior NaNs: `[1, 2, 3]`. -/
def shiftWitnessSeries : NormSeries := evapSeries [some 1, some 2, some 3]

/-- Cell `evap_pan` at row position `i`. -/
def evapAt (s : NormSeries) (i : Nat) : Option ℚ := (s.rows.getD i nullRow).evap_pan

/-- A row with its `evap_pan` cell blanked, for stating that the shift leaves
everything else unchanged. -/
def eraseEvap (r : NormRow) : NormRow := { r with evap_pan := none }

/-! ## General helper lemmas -/

/-- The definition `neg99_9` is the float literal `-99.9` of the source. -/
theorem neg99_9_eq : neg99_9 = -(999 / 10 : ℚ) := by
  rw [neg99_9, Rat.mk'_eq_divInt, Rat.divInt_eq_div]
  push_cast
  ring

instance : Std.Antisymm (fun (a b : ℤ) => a ≤ b) where
  antisymm := fun h h' => le_antisymm h h'

theorem int_min?_le {l : List ℤ} {lo : ℤ} (h : l.min? = some lo) :
    ∀ d ∈ l, lo ≤ d :=
  ((List.min?_eq_some_iff (α := ℤ) (fun a => le_refl a) (fun a b => min_choice a b)
    (fun a b c => le_min_iff)).mp h).2

theorem int_le_max? {l : List ℤ} {hi : ℤ} (h : l.max? = some hi) :
    ∀ d ∈ l, d ≤ hi :=
  ((List.max?_eq_some_iff (α := ℤ) (fun a => le_refl a) (fun a b => max_choice a b)
    (fun a b c => max_le_iff)).mp h).2

theorem int_min?_mem {l : List ℤ} {lo : ℤ} (h : l.min? = some lo) : lo ∈ l :=
  List.min?_mem (fun a b => min_choice a b) h

theorem getD_map_fixed {α β : Type} (l : List α) (f : α → β) (d : α) (i : Nat) :
    (l.map f).getD i (f d) = f (l.getD i d) := by
  induction l generalizing i with
  | nil => simp
  | cons x xs ih =>
    cases i with
    | zero => simp
    | succ j => simpa using ih j

theorem getD_map_of_lt {α β : Type} (l : List α) (f : α → β) (i : Nat)
    (h : i < l.length) (d : β) (d' : α) :
    (l.map f).getD i d = f (l.getD i d') := by
  induction l generalizing i with
  | nil => simp at h
  | cons x xs ih =>
    cases i with
    | zero => simp
    | succ j =>
      simp only [List.map_cons, List.getD_cons_succ]
      exact ih j (by simpa using h)

theorem getD_range_map {β : Type} (n : Nat) (g : Nat → β) (i : Nat)
    (h : i < n) (d : β) :
    ((List.range n).map g).getD i d = g i := by
  have : i < (List.range n).length := by simpa using h
  rw [getD_map_of_lt _ _ _ this d 0]
  congr 1
  rw [List.getD_eq_getElem?_getD]
  simp [List.getElem?_range h]

theorem find?_beq_of_mem {l : List ℤ} {d : ℤ} (h : d ∈ l) :
    l.find? (fun x => x == d) = some d := by
  induction l with
  | nil => simp at h
  | cons x xs ih =>
    by_cases hx : x = d
    · subst hx; simp [List.find?]
    · have : (x == d) = false := by simpa using hx
      simp only [List.find?, this]
      exact ih (by rcases List.mem_cons.mp h with h' | h' <;> [exact absurd h'.symm hx; exact h'])

theorem find_zip_map {β : Type} (l : List ℤ) (f : ℤ → β) (d : ℤ) :
    (l.zip (l.map f)).find? (fun p => p.1 == d)
      = (l.find? (fun x => x == d)).map (fun x => (x, f x)) := by
  induction l with
  | nil => simp
  | cons x xs ih =>
    simp only [List.map_cons, List.zip_cons_cons, List.find?]
    by_cases hx : x = d
    · subst hx; simp
    · have : (x == d) = false := by simpa using hx
      simp only [this, cond_false]
      exact ih

theorem find_zip_first {β : Type} (l : List ℤ) (ys : List β) (d : ℤ) (i : Nat)
    (y₀ : β) (hnd : l.Nodup) (hget : l.get? i = some d) (hlen : i < ys.length) :
    (l.zip ys).find? (fun p => p.1 == d) = some (d, ys.getD i y₀) := by
  induction l generalizing ys i with
  | nil => simp at hget
  | cons x xs ih =>
    cases ys with
    | nil => simp at hlen
    | cons y ys' =>
      cases i with
      | zero =>
        have hx : x = d := by simpa using hget
        subst hx
        simp [List.find?]
      | succ j =>
        have hget' : xs.get? j = some d := by simpa using hget
        have hdmem : d ∈ xs := List.get?_mem hget'
        have hx : x ≠ d := fun h => ((List.nodup_cons.mp hnd).1 (h ▸ hdmem))
        have hbeq : (x == d) = false := by simpa using hx
        simp only [List.zip_cons_cons, List.find?, hbeq, cond_false, List.getD_cons_succ]
        exact ih ys' j (List.nodup_cons.mp hnd).2 hget' (by simpa using hlen)

theorem zip_find_none {β : Type} (l : List ℤ) (ys : List β) (d : ℤ)
    (h : d ∉ l) :
    (l.zip ys).find? (fun p => p.1 == d) = none := by
  rw [List.find?_eq_none]
  intro p hp
  have := (List.of_mem_zip hp).1
  simp only [beq_iff_eq]
  intro hpd
  exact h (hpd ▸ this)

theorem mem_fullRange {lo hi d : ℤ} (hle : lo ≤ hi) :
    d ∈ fullRange lo hi ↔ lo ≤ d ∧ d ≤ hi := by
  unfold fullRange
  constructor
  · intro hd
    obtain ⟨k, hk, he⟩ := List.mem_map.mp hd
    have hk' : k < (hi - lo).toNat + 1 := List.mem_range.mp hk
    omega
  · rintro ⟨h1, h2⟩
    refine List.mem_map.mpr ⟨(d - lo).toNat, List.mem_range.mpr (by omega), by omega⟩

/-! ## C9: date-range validation -/

theorem validateDateRange_error_iff (sy ey cur : ℤ) :
    validateDateRange sy ey cur = .error .invalidDateRange ↔
      (sy < 1889 ∨ cur < ey ∨ ey < sy) := by
  unfold validateDateRange
  by_cases h1 : sy < 1889 ∨ cur < ey
  · simp only [if_pos h1, true_iff]
    omega
  · by_cases h2 : ey < sy
    · simp only [if_neg h1, if_pos h2, true_iff]
      omega
    · simp only [if_neg h1, if_neg h2]
      constructor
      · intro h
        exact absurd h (by simp)
      · intro h
        omega

theorem validateCoordinates_ok {lat lon : ℚ}
    (h1 : LAT_MIN ≤ lat) (h2 : lat ≤ LAT_MAX)
    (h3 : LON_MIN ≤ lon) (h4 : lon ≤ LON_MAX) :
    validateCoordinates lat lon = .ok true := by
  unfold validateCoordinates
  rw [if_neg (not_not_intro ⟨h1, h2⟩), if_neg (not_not_intro ⟨h3, h4⟩)]

/-- C9.  Date-range validation fails with `InvalidDateRange` exactly when
`start_year < 1889`, `end_year` exceeds the current year, or
`start_year > end_year`; when it fails (with valid coordinates), the whole
pipeline fails with that error for every response text, i.e. before any parse
work and with no partial work performed. -/
theorem date_range_validation :
    (∀ sy ey cur : ℤ, validateDateRange sy ey cur = .error .invalidDateRange ↔
      (sy < 1889 ∨ cur < ey ∨ ey < sy)) ∧
    (∀ (lat lon : ℚ) (sy ey cur : ℤ) (fmt : Fmt) (text : String),
      LAT_MIN ≤ lat → lat ≤ LAT_MAX → LON_MIN ≤ lon → lon ≤ LON_MAX →
      (sy < 1889 ∨ cur < ey ∨ ey < sy) →
      getSiloData lat lon sy ey cur fmt text = .error .invalidDateRange) := by
  refine ⟨validateDateRange_error_iff, ?_⟩
  intro lat lon sy ey cur fmt text h1 h2 h3 h4 hbad
  unfold getSiloData
  rw [validateCoordinates_ok h1 h2 h3 h4]
  rw [(validateDateRange_error_iff sy ey cur).mpr hbad]

/-- Witness for C9 at `start_year = 1888 < 1889`. -/
theorem date_range_validation_witness :
    getSiloData (-30) 120 1888 1890 2026 .fao56 "irrelevant" =
      .error .invalidDateRange := by
  exact date_range_validation.2 (-30) 120 1888 1890 2026 .fao56 "irrelevant"
    (by norm_num [LAT_MIN]) (by norm_num [LAT_MAX])
    (by norm_num [LON_MIN]) (by norm_num [LON_MAX]) (by omega)

/-! ## C5: TAV -/

theorem tav_daily_eq (mx mn : List (Option ℚ)) :
    ((List.zipWith addOpt mx mn).map (Option.map (fun x => x / 2))).filterMap id
      = (mx.zip mn).filterMap
          (fun p => match p with
            | (some a, some b) => some ((a + b) / 2)
            | _ => none) := by
  induction mx generalizing mn with
  | nil => simp
  | cons x xs ih =>
    cases mn with
    | nil => simp
    | cons y ys =>
      cases x <;> cases y <;> simp [addOpt, ih ys]

/-- C5.  `calculate_tav` is the null-skipping mean over all days of
`(max_temp + min_temp) / 2` (a day with a null in either temperature
contributes nothing), fails with `MissingColumns` when either temperature
column is absent, and returns exactly 25 on the 3-day scenario
`max_temp=[30,32,31]`, `min_temp=[20,18,19]`. -/
theorem calculate_tav_correct :
    (∀ df : DF, "max_temp" ∈ df.cols → "min_temp" ∈ df.cols →
      calculate_tav df = .ok (tavSpec df)) ∧
    (∀ df : DF, ¬ ("max_temp" ∈ df.cols ∧ "min_temp" ∈ df.cols) →
      calculate_tav df = .error .missingColumns) ∧
    calculate_tav tavScenarioDF = .ok (some 25) := by
  refine ⟨?_, ?_, ?_⟩
  · intro df h1 h2
    unfold calculate_tav tavSpec seriesMean
    rw [if_pos ⟨h1, h2⟩]
    simp only [tav_daily_eq]
  · intro df h
    unfold calculate_tav
    rw [if_neg h]
  · unfold calculate_tav
    rw [if_pos (by decide)]
    simp [tavScenarioDF, colValues, seriesMean, addOpt]
    norm_num

/-- Witness for C5: the success branch at the scenario table and the failure
branch at a table with no temperature columns. -/
theorem calculate_tav_correct_witness :
    calculate_tav tavScenarioDF = .ok (tavSpec tavScenarioDF) ∧
    calculate_tav missingColDF = .error .missingColumns := by
  exact ⟨calculate_tav_correct.1 tavScenarioDF (by decide) (by decide),
         calculate_tav_correct.2.1 missingColDF (by decide)⟩

/-! ## C10: boundary detection when the header is the first line -/

/-- C10 counterexample.  The claim says that whenever the header/data boundary
lies at line index 0 the parser raises the could-not-find-data-start error
because the fallback "either fails or also yields index 0".  On this input the
named header is matched at index 0 and discarded, but the comma fallback
matches line 2 and yields boundary index 1, so no error is raised. -/
theorem boundary_zero_header_cex :
    headerZeroLines.findIdx? headerPred = some 0 ∧
    findDataStart headerZeroLines = .ok 1 := by
  exact ⟨by decide, by decide⟩

/-- C10 (amended).  When the named-header scan first matches at line index 0,
the match is indistinguishable from "no match" and is discarded; the parser
then raises the could-not-find-data-start error exactly when the comma
fallback finds no qualifying data line or finds its first one at index 1.  A
qualifying comma line at any other index instead silently yields that line's
predecessor as the boundary. -/
theorem boundary_zero_header (lines : List String)
    (h : lines.findIdx? headerPred = some 0) :
    findDataStart lines =
      match lines.findIdx? dataLinePred with
      | none => .error (.malformedResponse "Could not find data start in SILO response")
      | some 1 => .error (.malformedResponse "Could not find data start in SILO response")
      | some i => .ok ((i : ℤ) - 1) := by
  simp only [findDataStart, boundaryIdx, h, Nat.cast_zero, if_pos rfl]
  cases hf : lines.findIdx? dataLinePred with
  | none => simp
  | some i =>
    match i with
    | 0 => norm_num
    | 1 => norm_num
    | (n + 2) =>
      have hne : ¬ ((n : ℤ) + 2 - 1 = 0) := by omega
      simp [hne]

/-- Witness for C10 at a whitespace-only payload with the header at line 0:
the fallback finds no comma line and the error is raised. -/
theorem boundary_zero_header_witness :
    findDataStart headerZeroNoCommaLines =
      .error (.malformedResponse "Could not find data start in SILO response") := by
  have H := boundary_zero_header headerZeroNoCommaLines (by decide)
  have hf : headerZeroNoCommaLines.findIdx? dataLinePred = none := by decide
  rw [hf] at H
  exact H

/-! ## C7: the date-parsing step -/

/-- C7 counterexample.  `"2020-01-02"` fails the strict `%Y%m%d` format but is
accepted by the permissive parser; the claim therefore says its row is kept.
The code drops it: under `errors='coerce'` the strict pass coerces the value
to NaT instead of raising, so the permissive retry never runs. -/
theorem permissive_retry_dead_cex :
    strictYYYYMMDD "2020-01-02" = none ∧
    permissiveDate "2020-01-02" = some 18263 ∧
    (parseDatePairs mixedDateToks [(0 : Nat), 1]).map Prod.snd = [0] ∧
    (parseDatePairsClaim mixedDateToks [(0 : Nat), 1]).map Prod.snd = [0, 1] := by
  exact ⟨by decide, by decide, by decide, by decide⟩

/-- C7 (amended).  The date column is parsed with the strict `YYYYMMDD` format
only; exactly the rows whose token fails strict parsing are dropped (there is
no per-value permissive retry — the fallback is unreachable because
`errors='coerce'` converts failures to NaT instead of raising), and the
surviving rows are sorted by ascending date. -/
theorem date_parse_strict_only {α : Type} (toks : List String) (rows : List α) :
    (parseDatePairs toks rows).Perm
      ((toks.zip rows).filterMap
        (fun p => (strictYYYYMMDD p.1).map (fun d => (d, p.2)))) ∧
    List.Sorted (fun a b => a.1 ≤ b.1) (parseDatePairs toks rows) ∧
    (∀ d r, (d, r) ∈ parseDatePairs toks rows →
      ∃ p ∈ toks.zip rows, strictYYYYMMDD p.1 = some d ∧ p.2 = r) := by
  haveI : IsTotal (ℤ × α) (fun a b => a.1 ≤ b.1) := ⟨fun a b => le_total a.1 b.1⟩
  haveI : IsTrans (ℤ × α) (fun a b => a.1 ≤ b.1) := ⟨fun _ _ _ h1 h2 => le_trans h1 h2⟩
  have hperm := List.perm_insertionSort (fun (a b : ℤ × α) => a.1 ≤ b.1)
    ((toks.zip rows).filterMap (fun p => (strictYYYYMMDD p.1).map (fun d => (d, p.2))))
  refine ⟨hperm, List.sorted_insertionSort _ _, ?_⟩
  intro d r hmem
  have hmem' := hperm.subset hmem
  obtain ⟨p, hp, he⟩ := List.mem_filterMap.mp hmem'
  obtain ⟨z, hz, hzeq⟩ := Option.map_eq_some'.mp he
  obtain ⟨rfl, rfl⟩ : z = d ∧ p.2 = r := by
    constructor <;> [exact (Prod.mk.injEq _ _ _ _ ▸ hzeq).1; exact (Prod.mk.injEq _ _ _ _ ▸ hzeq).2]
  exact ⟨p, hp, hz, rfl⟩

/-- Witness for C7 on the mixed-token input: the surviving rows are sorted,
and the kept row traces back to the strictly-parsed token. -/
theorem date_parse_strict_only_witness :
    List.Sorted (fun (a b : ℤ × Nat) => a.1 ≤ b.1)
      (parseDatePairs mixedDateToks [(0 : Nat), 1]) ∧
    (∃ p ∈ mixedDateToks.zip [(0 : Nat), 1],
      strictYYYYMMDD p.1 = some 18262 ∧ p.2 = 0) := by
  have H := date_parse_strict_only mixedDateToks [(0 : Nat), 1]
  exact ⟨H.2.1, H.2.2 18262 0 (by decide)⟩

/-! ## C2: the evaporation shift -/

theorem getD_default_irrel {α : Type} (l : List α) (i : Nat) (h : i < l.length)
    (a b : α) : l.getD i a = l.getD i b := by
  rw [List.getD_eq_getElem l a h, List.getD_eq_getElem l b h]

theorem getLastD_eq_getD {α : Type} (l : List α) (c : α) (h : l ≠ []) :
    l.getLastD c = l.getD (l.length - 1) c := by
  induction l generalizing c with
  | nil => exact absurd rfl h
  | cons x xs ih =>
    cases xs with
    | nil => simp
    | cons y ys =>
      rw [List.getLastD_cons, ih x (by simp)]
      simp only [List.length_cons, Nat.add_sub_cancel, List.getD_cons_succ]
      exact getD_default_irrel _ _ (by simp) x c

theorem ffillAux_append_none (l : List (Option ℚ)) (c : Option ℚ)
    (h : ∀ x ∈ l, x ≠ none) :
    ffillAux c (l ++ [none]) = l ++ [l.getLastD c] := by
  induction l generalizing c with
  | nil => simp [ffillAux]
  | cons x xs ih =>
    cases x with
    | none => exact absurd rfl (h none (List.mem_cons_self _ _))
    | some v =>
      simp only [List.cons_append, ffillAux, List.append_eq]
      rw [ih (some v) (fun y hy => h y (List.mem_cons_of_mem _ hy))]
      rw [List.getLastD_cons]

theorem getD_zipWith_evap (as : List NormRow) (bs : List (Option ℚ)) (i : Nat)
    (hlen : bs.length = as.length) (hi : i < as.length) :
    ((List.zipWith (fun r v => { r with evap_pan := v }) as bs).getD i nullRow).evap_pan
      = bs.getD i none := by
  induction as generalizing bs i with
  | nil => simp at hi
  | cons a as' ih =>
    cases bs with
    | nil => simp at hlen
    | cons b bs' =>
      cases i with
      | zero => simp
      | succ j =>
        simp only [List.zipWith_cons_cons, List.getD_cons_succ]
        exact ih bs' j (by simpa using hlen) (by simpa using hi)

theorem zipWith_evap_eraseEvap (as : List NormRow) (bs : List (Option ℚ))
    (hlen : bs.length = as.length) :
    (List.zipWith (fun r v => { r with evap_pan := v }) as bs).map eraseEvap
      = as.map eraseEvap := by
  induction as generalizing bs with
  | nil => simp
  | cons a as' ih =>
    cases bs with
    | nil => simp at hlen
    | cons b bs' =>
      simp only [List.zipWith_cons_cons, List.map_cons]
      rw [ih bs' (by simpa using hlen)]
      rfl

theorem evapAt_eq_map (s : NormSeries) (i : Nat) :
    evapAt s i = (s.rows.map (fun r => r.evap_pan)).getD i none :=
  (getD_map_fixed s.rows (fun r => r.evap_pan) nullRow i).symm

/-- C2 (amended).  Provided `evap_pan` is non-null on every day after the
first, `shift_evaporation` attributes day `d+1`'s value to day `d`, backfills
the last day with the second-to-last day's post-shift value, and leaves the
index and every other column unchanged.  (The unconditional claim fails: an
interior null makes the blanket `ffill` substitute a stale value — see the
counterexample.) -/
theorem shift_evaporation_shift (s : NormSeries)
    (h : ∀ i, 1 ≤ i → i < s.rows.length → evapAt s i ≠ none) :
    (∀ d, d + 1 < s.rows.length →
      evapAt (shiftEvaporation s) d = evapAt s (d + 1)) ∧
    (2 ≤ s.rows.length →
      evapAt (shiftEvaporation s) (s.rows.length - 1)
        = evapAt (shiftEvaporation s) (s.rows.length - 2)) ∧
    (shiftEvaporation s).index = s.index ∧
    (shiftEvaporation s).rows.map eraseEvap = s.rows.map eraseEvap := by
  obtain ⟨idx, rows⟩ := s
  cases rows with
  | nil =>
    refine ⟨?_, ?_, rfl, ?_⟩
    · intro d hd
      simp at hd
    · intro h2
      simp at h2
    · simp [shiftEvaporation]
  | cons r rs =>
    set xs := rs.map (fun row => row.evap_pan) with hxs
    have hxs_len : xs.length = rs.length := by simp [hxs]
    have hxs_some : ∀ x ∈ xs, x ≠ none := by
      intro x hx
      obtain ⟨row, hrow, hre⟩ := List.mem_map.mp hx
      obtain ⟨j, hj, hje⟩ := List.mem_iff_getElem.mp hrow
      have hh := h (j + 1) (by omega) (by simp; omega)
      have he : evapAt ⟨idx, r :: rs⟩ (j + 1) = rs[j].evap_pan := by
        unfold evapAt
        simp only [List.getD_cons_succ]
        rw [List.getD_eq_getElem rs nullRow hj]
      rw [he, hje, hre] at hh
      exact hh
    have hsh : shiftEvaporation ⟨idx, r :: rs⟩ =
        { index := idx
          rows := List.zipWith (fun row v => { row with evap_pan := v }) (r :: rs)
            (xs ++ [xs.getLastD none]) } := by
      unfold shiftEvaporation
      simp only [List.map_cons]
      rw [show shiftNeg1 (r.evap_pan :: rs.map (fun row => row.evap_pan))
            = rs.map (fun row => row.evap_pan) ++ [none] from rfl]
      rw [if_pos (by simp)]
      rw [ffillAux_append_none _ none hxs_some]
    have hlen2 : (xs ++ [xs.getLastD none]).length = (r :: rs).length := by
      simp [hxs_len]
    refine ⟨?_, ?_, by rw [hsh], by rw [hsh]; exact zipWith_evap_eraseEvap _ _ hlen2⟩
    · intro d hd
      have hd' : d < rs.length := by simpa using hd
      rw [hsh]
      unfold evapAt
      rw [getD_zipWith_evap _ _ d hlen2 (by simp; omega)]
      rw [List.getD_append _ _ _ d (by omega)]
      simp only [List.getD_cons_succ]
      rw [hxs]
      exact getD_map_fixed rs (fun row => row.evap_pan) nullRow d
    · intro h2
      have hlen3 : (r :: rs).length - 1 = rs.length := by simp
      have hpos : 1 ≤ rs.length := by simpa using h2
      have hxs_ne : xs ≠ [] := by
        intro hc
        rw [hc] at hxs_len
        simp at hxs_len
        omega
      rw [hsh]
      unfold evapAt
      rw [getD_zipWith_evap _ _ _ hlen2 (by simp)]
      rw [getD_zipWith_evap _ _ _ hlen2 (by simp; omega)]
      have hright : (xs ++ [xs.getLastD none]).getD ((r :: rs).length - 1) none
          = xs.getLastD none := by
        rw [hlen3, List.getD_append_right _ _ _ _ (by omega)]
        simp [hxs_len]
      have hleft : (xs ++ [xs.getLastD none]).getD ((r :: rs).length - 2) none
          = xs.getD (rs.length - 1) none := by
        have : (r :: rs).length - 2 = rs.length - 1 := by simp
        rw [this, List.getD_append _ _ _ _ (by omega)]
      rw [hright, hleft, getLastD_eq_getD xs none hxs_ne, hxs_len]

/-- C2 counterexample.  On `evap_pan = [1, 2, NaN, 4]` the claim demands that
post-shift day 1 equal pre-shift day 2 (which is NaN); the code's blanket
`ffill` yields the stale value 2 instead. -/
theorem shift_interior_nan_cex :
    evapAt (shiftEvaporation shiftCexSeries) 1 = some 2 ∧
    evapAt shiftCexSeries 2 = none ∧
    some (2 : ℚ) ≠ (none : Option ℚ) := by
  refine ⟨by decide, by decide, by decide⟩

/-- Witness for C2 on the NaN-free series `evap_pan = [1, 2, 3]`. -/
theorem shift_evaporation_shift_witness :
    evapAt (shiftEvaporation shiftWitnessSeries) 0 = evapAt shiftWitnessSeries 1 ∧
    evapAt (shiftEvaporation shiftWitnessSeries) 2
      = evapAt (shiftEvaporation shiftWitnessSeries) 1 := by
  have H := shift_evaporation_shift shiftWitnessSeries (by
    intro i h1 h2
    have h2' : i < 3 := h2
    interval_cases i <;> decide)
  exact ⟨H.1 0 (by decide), H.2.1 (by decide)⟩

/-! ## C8: the .met data-row layout -/

theorem rjust_length (w : Nat) (s : String) : (rjust w s).length = max w s.length := by
  unfold rjust
  split
  case isTrue h => exact (Nat.max_eq_right h).symm
  case isFalse h =>
    have he : (⟨List.replicate (w - s.length) ' ' ++ s.data⟩ : String).length
        = (List.replicate (w - s.length) ' ' ++ s.data).length := rfl
    rw [he]
    simp only [List.length_append, List.length_replicate]
    have hd : s.length = s.data.length := rfl
    rw [← hd]
    omega

theorem rjust_of_ge (w : Nat) (s : String) (h : s.length ≥ w) : rjust w s = s := by
  unfold rjust
  rw [if_pos h]

theorem met_field_eq (v : Option ℚ) : rjust 6 (fmtNum v) = specNumField v := by
  cases v with
  | none => decide
  | some x =>
    show rjust 6 (pyFmt61 x) = pyFmt61 x
    apply rjust_of_ge
    unfold pyFmt61
    rw [rjust_length]
    omega

/-- C8.  Every data row of the agronomic emitter follows the fixed-width
layout `year(4) day(4) radn(6.1f) maxt(6.1f) mint(6.1f) rain(6.1f) evap(6.1f)
vp(6.1f) code(7, right-justified)` as the spec states it; a null numeric cell
renders as the right-aligned literal `NaN` in its 6-character field; and on a
single-row all-null series every numeric field is `"   NaN"` and the code
field holds `"222222"`. -/
theorem met_row_layout :
    (∀ (year : ℤ) (day : Option ℚ) (radn maxt mint rain evap vp : Option ℚ)
      (code : Option String),
      mkMetRow year day radn maxt mint rain evap vp code
        = mkMetRowSpec year day radn maxt mint rain evap vp code) ∧
    fmtNum none = "   NaN" ∧
    exportToMetRows allNullSeries
      = ["1970    1    NaN    NaN    NaN    NaN    NaN    NaN  222222\n"] := by
  refine ⟨?_, rfl, ?_⟩
  · intro year day radn maxt mint rain evap vp code
    unfold mkMetRow mkMetRowSpec
    simp only [met_field_eq]
  · decide

/-! ## C3: deterministic variable resolution and its diagnostics -/

theorem matchB_eq_matchSpecB (c s : String) : matchB c s = matchSpecB c s := by
  unfold matchB matchSpecB
  cases h : (lowerStr (trimStr c)).data == (trimStr (lowerStr s)).data <;> simp [h]

theorem findCol_eq_spec (cols cands : List String) :
    findCol cols cands = findColSpec cols cands := by
  unfold findCol findColSpec
  congr 1
  funext col
  congr 1
  funext silo
  exact matchB_eq_matchSpecB col silo

theorem resolveList_error_at (cols : List String) (m : List (String × String))
    (vs : List String) (v : String)
    (hne : ∀ w ∈ vs, (possibleNames m w).isEmpty = false)
    (hfind : vs.find? (fun w => (findCol cols (possibleNames m w)).isNone) = some v) :
    resolveList cols m vs = .error (.missingVariable v (possibleNames m v) cols) := by
  induction vs with
  | nil => simp at hfind
  | cons w ws ih =>
    have hw := hne w (List.mem_cons_self w ws)
    simp only [List.find?_cons] at hfind
    unfold resolveList
    cases hp : findCol cols (possibleNames m w) with
    | none =>
      rw [hp] at hfind
      simp only [Option.isNone_none, cond_true, Option.some.injEq] at hfind
      subst hfind
      simp [hw, hp]
    | some c =>
      rw [hp] at hfind
      simp only [Option.isNone_some, cond_false] at hfind
      have hrec := ih (fun u hu => hne u (List.mem_cons_of_mem _ hu)) hfind
      simp [hw, hp, hrec]

theorem resolveList_ok_covers (cols : List String) (m : List (String × String))
    (vs : List String)
    (hfind : vs.find? (fun w => (findCol cols (possibleNames m w)).isNone) = none) :
    ∃ pairs, resolveList cols m vs = .ok pairs ∧
      ∀ w ∈ vs, (possibleNames m w).isEmpty = false →
        (pairs.find? (fun p => p.1 == w)).isSome = true := by
  induction vs with
  | nil => exact ⟨[], rfl, by simp⟩
  | cons w ws ih =>
    simp only [List.find?_cons] at hfind
    cases hp : findCol cols (possibleNames m w) with
    | none =>
      rw [hp] at hfind
      simp at hfind
    | some c =>
      rw [hp] at hfind
      simp only [Option.isNone_some, cond_false] at hfind
      obtain ⟨ps, hok, hcov⟩ := ih hfind
      cases hem : (possibleNames m w).isEmpty with
      | true =>
        refine ⟨ps, by unfold resolveList; simp [hem, hok], ?_⟩
        intro u hu hucand
        rcases List.mem_cons.mp hu with rfl | hu'
        · rw [hucand] at hem
          cases hem
        · exact hcov u hu' hucand
      | false =>
        refine ⟨(w, c) :: ps, by unfold resolveList; simp [hem, hp, hok], ?_⟩
        intro u hu hucand
        by_cases huw : w = u
        · subst huw
          simp [List.find?_cons]
        · have hu' : u ∈ ws := by
            rcases List.mem_cons.mp hu with rfl | hu' <;> [exact absurd rfl huw; exact hu']
          have hbeq : (w == u) = false := by simpa using huw
          simp only [List.find?_cons, hbeq, cond_false]
          exact hcov u hu' hucand

theorem resolveList_find_eq (cols : List String) (m : List (String × String))
    (vs : List String) (pairs : List (String × String)) (v c : String)
    (h : resolveList cols m vs = .ok pairs)
    (hfc : findCol cols (possibleNames m v) = some c)
    (hmem : v ∈ vs) (hne : (possibleNames m v).isEmpty = false) :
    pairs.find? (fun p => p.1 == v) = some (v, c) := by
  induction vs generalizing pairs with
  | nil => simp at hmem
  | cons w ws ih =>
    unfold resolveList at h
    cases hem : (possibleNames m w).isEmpty with
    | true =>
      simp only [hem, if_true] at h
      have hvw : v ≠ w := by
        intro hv
        subst hv
        rw [hne] at hem
        cases hem
      have hv' : v ∈ ws := by
        rcases List.mem_cons.mp hmem with rfl | hv' <;> [exact absurd rfl hvw; exact hv']
      exact ih pairs h hv'
    | false =>
      simp only [hem, Bool.false_eq_true, if_false] at h
      cases hp : findCol cols (possibleNames m w) with
      | none =>
        rw [hp] at h
        cases h
      | some cw =>
        rw [hp] at h
        cases hrec : resolveList cols m ws with
        | error e =>
          rw [hrec] at h
          cases h
        | ok ps =>
          rw [hrec] at h
          have hpairs : pairs = (w, cw) :: ps := by
            cases h
            rfl
          subst hpairs
          by_cases hvw : w = v
          · subst hvw
            rw [hfc] at hp
            have : cw = c := (Option.some.inj hp).symm
            subst this
            simp [List.find?_cons]
          · have hbeq : (w == v) = false := by simpa using hvw
            simp only [List.find?_cons, hbeq, cond_false]
            have hv' : v ∈ ws := by
              rcases List.mem_cons.mp hmem with rfl | hv' <;> [exact absurd rfl (fun h' => hvw h'.symm); exact hv']
            exact ih ps hrec hv'

/-- C3.  The per-pair test of the source (`exact-or-substring`) coincides with
the spec's "exact first, then substring either direction" test, so the search
— raw columns outer, mapping-declaration-ordered candidates inner, first match
wins — equals the spec's search; and `extract_variables` fails exactly at the
first required variable (in `REQUIRED_VARIABLES` order) with no matching raw
column, raising `MissingVariableError` that names the variable, the candidates
tried, and the available raw columns. -/
theorem variable_resolution :
    (∀ cols cands : List String, findCol cols cands = findColSpec cols cands) ∧
    (∀ (df : DF) (fmt : Fmt) (v : String),
      REQUIRED_VARIABLES.find?
        (fun w => (findCol df.cols (possibleNames (mappingFor fmt) w)).isNone) = some v →
      extractVariables df fmt
        = .error (.missingVariable v (possibleNames (mappingFor fmt) v) df.cols)) ∧
    (∀ (df : DF) (fmt : Fmt),
      REQUIRED_VARIABLES.find?
        (fun w => (findCol df.cols (possibleNames (mappingFor fmt) w)).isNone) = none →
      (extractVariables df fmt).isOk = true) := by
  have hne : ∀ (fmt : Fmt), ∀ w ∈ REQUIRED_VARIABLES,
      (possibleNames (mappingFor fmt) w).isEmpty = false := by
    intro fmt
    cases fmt <;> decide
  refine ⟨findCol_eq_spec, ?_, ?_⟩
  · intro df fmt v hfind
    unfold extractVariables
    rw [resolveList_error_at df.cols (mappingFor fmt) REQUIRED_VARIABLES v (hne fmt) hfind]
  · intro df fmt hfind
    obtain ⟨pairs, hok, hcov⟩ :=
      resolveList_ok_covers df.cols (mappingFor fmt) REQUIRED_VARIABLES hfind
    unfold extractVariables
    rw [hok]
    have hmiss : REQUIRED_VARIABLES.filter
        (fun v => (pairs.find? (fun p => p.1 == v)).isNone) = [] := by
      rw [List.filter_eq_nil_iff]
      intro a ha
      cases hx : pairs.find? (fun p => p.1 == a) with
      | none =>
        have := hcov a ha (hne fmt a ha)
        rw [hx] at this
        simp at this
      | some q => simp [hx]
    simp only [hmiss]
    rfl

/-- Witness for C3: on a table offering only a `Rain` column, resolution fails
at `max_temp` — the first unresolvable variable in required order — with the
candidate list and the available columns in the error. -/
theorem variable_resolution_witness :
    extractVariables missingColDF .fao56
      = .error (.missingVariable "max_temp" ["T.Max"] ["Rain"]) := by
  have H := variable_resolution.2.1 missingColDF .fao56 "max_temp" (by decide)
  rw [H]
  rfl

/-! ## C1: reindexing to a contiguous daily calendar -/

theorem extract_ok_eq (df : DF) (fmt : Fmt) (s : NormSeries)
    (hok : extractVariables df fmt = .ok s) :
    ∃ pairs, resolveList df.cols (mappingFor fmt) REQUIRED_VARIABLES = .ok pairs ∧
      s = buildSeries df pairs := by
  unfold extractVariables at hok
  cases hres : resolveList df.cols (mappingFor fmt) REQUIRED_VARIABLES with
  | error e =>
    rw [hres] at hok
    exact absurd hok (by simp)
  | ok pairs =>
    rw [hres] at hok
    cases hm : (REQUIRED_VARIABLES.filter
        (fun v => (pairs.find? (fun p => p.1 == v)).isNone)).isEmpty with
    | true =>
      simp only [hm, if_true] at hok
      exact ⟨pairs, rfl, (Except.ok.inj hok).symm⟩
    | false =>
      simp only [hm, Bool.false_eq_true, if_false] at hok
      exact absurd hok (by simp)

theorem buildSeries_nonempty (df : DF) (pairs : List (String × String))
    (lo hi : ℤ) (hlo : df.index.min? = some lo) (hhi : df.index.max? = some hi) :
    buildSeries df pairs =
      { index := fullRange lo hi
        rows := (fullRange lo hi).map (lookupRow df pairs) } := by
  unfold buildSeries
  have hne : df.index.isEmpty = false := by
    cases hidx : df.index with
    | nil =>
      rw [hidx] at hlo
      simp at hlo
    | cons a l => rfl
  simp only [hne, Bool.false_eq_true, if_false, hlo, hhi]

theorem rowAt_mem_range (df : DF) (pairs : List (String × String))
    (lo hi d : ℤ) (hlo : df.index.min? = some lo) (hhi : df.index.max? = some hi)
    (h1 : lo ≤ d) (h2 : d ≤ hi) :
    rowAt (buildSeries df pairs) d = lookupRow df pairs d := by
  rw [buildSeries_nonempty df pairs lo hi hlo hhi]
  unfold rowAt
  rw [find_zip_map (fullRange lo hi) (lookupRow df pairs) d]
  rw [find?_beq_of_mem ((mem_fullRange (le_trans h1 h2)).mpr ⟨h1, h2⟩)]
  rfl

theorem extract_absent_null (df : DF) (fmt : Fmt) (s : NormSeries) (lo hi d : ℤ)
    (hok : extractVariables df fmt = .ok s)
    (hlo : df.index.min? = some lo) (hhi : df.index.max? = some hi)
    (h1 : lo ≤ d) (h2 : d ≤ hi) (hd : d ∉ df.index) :
    rowAt s d = nullRow := by
  obtain ⟨pairs, _, hs⟩ := extract_ok_eq df fmt s hok
  rw [hs, rowAt_mem_range df pairs lo hi d hlo hhi h1 h2]
  unfold lookupRow
  rw [zip_find_none df.index (builtRows df pairs) d hd]

/-- C1 (amended).  The normalized series' date index is the contiguous daily
calendar spanning the raw table's min/max date, with length
`(max_date - min_date).days + 1` and zero gaps, and every in-range date absent
from the source data is an all-null row — including a *null* code cell: the
reindex runs after the code column is assigned, so the `"222222"` default is
not applied to the inserted rows. -/
theorem extract_reindex (df : DF) (fmt : Fmt) (s : NormSeries) (lo hi : ℤ)
    (hok : extractVariables df fmt = .ok s)
    (hlo : df.index.min? = some lo) (hhi : df.index.max? = some hi) :
    s.index = fullRange lo hi ∧
    s.index.length = (hi - lo).toNat + 1 ∧
    (∀ k, k < s.index.length → s.index.getD k 0 = lo + (k : ℤ)) ∧
    (∀ d, lo ≤ d → d ≤ hi → d ∉ df.index → rowAt s d = nullRow) ∧
    nullRow.code = none := by
  obtain ⟨pairs, hres, hs⟩ := extract_ok_eq df fmt s hok
  have hidx : s.index = fullRange lo hi := by
    rw [hs, buildSeries_nonempty df pairs lo hi hlo hhi]
  refine ⟨hidx, ?_, ?_, ?_, rfl⟩
  · rw [hidx]
    simp [fullRange]
  · intro k hk
    rw [hidx] at hk ⊢
    have hk' : k < (hi - lo).toNat + 1 := by simpa [fullRange] using hk
    exact getD_range_map _ _ k hk' 0
  · intro d h1 h2 hd
    exact extract_absent_null df fmt s lo hi d hok hlo hhi h1 h2 hd

/-- C1 counterexample.  On a raw table with dates `{0, 2}`, the inserted day 1
of the normalized series has a null code cell, not the default `"222222"` the
claim requires. -/
theorem extract_gap_code_cex :
    extractVariables gapDF .fao56 = .ok gapSeries ∧
    (rowAt gapSeries 1).code = none ∧
    (none : Option String) ≠ some "222222" := by
  exact ⟨by decide, by decide, by decide⟩

/-- Witness for C1 on `gapDF` (dates `{0, 2}`): the series spans `[0, 2]`
contiguously and the absent date 1 is the all-null row. -/
theorem extract_reindex_witness :
    gapSeries.index = fullRange 0 2 ∧
    gapSeries.index.length = ((2 : ℤ) - 0).toNat + 1 ∧
    rowAt gapSeries 1 = nullRow := by
  have H := extract_reindex gapDF .fao56 gapSeries 0 2 (by decide) (by decide) (by decide)
  exact ⟨H.1, H.2.1, H.2.2.2.1 1 (by decide) (by decide) (by decide)⟩

/-! ## Shared: the row of the normalized series at a source date -/

theorem rowAt_extract_source (df : DF) (fmt : Fmt) (s : NormSeries)
    (pairs : List (String × String)) (i : Nat) (d : ℤ)
    (hres : resolveList df.cols (mappingFor fmt) REQUIRED_VARIABLES = .ok pairs)
    (hok : extractVariables df fmt = .ok s)
    (hnd : df.index.Nodup)
    (hget : df.index.get? i = some d) :
    rowAt s d = builtRow df pairs i := by
  obtain ⟨pairs', hres', hs⟩ := extract_ok_eq df fmt s hok
  rw [hres] at hres'
  have hp : pairs' = pairs := (Except.ok.inj hres').symm
  rw [hp] at hs
  have hdmem : d ∈ df.index := List.get?_mem hget
  obtain ⟨lo, hlo⟩ : ∃ lo, df.index.min? = some lo := by
    cases hm : df.index.min? with
    | some lo => exact ⟨lo, rfl⟩
    | none =>
      rw [List.min?_eq_none_iff] at hm
      rw [hm] at hdmem
      simp at hdmem
  obtain ⟨hi, hhi⟩ : ∃ hi, df.index.max? = some hi := by
    cases hm : df.index.max? with
    | some hi => exact ⟨hi, rfl⟩
    | none =>
      rw [List.max?_eq_none_iff] at hm
      rw [hm] at hdmem
      simp at hdmem
  have h1 := int_min?_le hlo d hdmem
  have h2 := int_le_max? hhi d hdmem
  have hlt : i < df.index.length := (List.get?_eq_some.mp hget).1
  have hlen : i < (builtRows df pairs).length := by
    simpa [builtRows] using hlt
  rw [hs, rowAt_mem_range df pairs lo hi d hlo hhi h1 h2]
  unfold lookupRow
  rw [find_zip_first df.index (builtRows df pairs) d i nullRow hnd hget hlen]
  show (builtRows df pairs).getD i nullRow = builtRow df pairs i
  unfold builtRows
  exact getD_range_map _ _ i hlt nullRow

/-! ## C4: sentinel replacement -/

theorem replaceFold_cell (codes : List ℚ) (x : Option ℚ) :
    codes.foldl (fun v c => replaceOne c v) x
      = match x with
        | none => none
        | some q => if q ∈ codes then none else some q := by
  induction codes generalizing x with
  | nil => cases x <;> simp
  | cons c cs ih =>
    cases x with
    | none =>
      rw [List.foldl_cons, show replaceOne c none = none from rfl, ih none]
    | some q =>
      by_cases hq : q = c
      · subst hq
        rw [List.foldl_cons,
          show replaceOne q (some q) = none from by simp [replaceOne], ih none]
        simp [List.mem_cons]
      · have hb : (q == c) = false := by simpa using hq
        rw [List.foldl_cons,
          show replaceOne c (some q) = some q from by simp [replaceOne, hb],
          ih (some q)]
        simp [List.mem_cons, hq]

theorem foldl_map_comm (codes : List ℚ) (l : List (Option ℚ)) :
    codes.foldl (fun acc c => acc.map (replaceOne c)) l
      = l.map (fun x => codes.foldl (fun v c => replaceOne c v) x) := by
  induction codes generalizing l with
  | nil => simp
  | cons c cs ih =>
    rw [List.foldl_cons, ih, List.map_map]
    rfl

theorem applySentinels_eq (l : List (Option ℚ)) :
    applySentinels l = l.map replaceSentinels := by
  unfold applySentinels
  rw [foldl_map_comm]
  have hf : (fun x => MISSING_CODES.foldl (fun v c => replaceOne c v) x)
      = replaceSentinels := by
    funext x
    rw [replaceFold_cell]
    cases x <;> rfl
  rw [hf]

theorem getVar_builtRow (df : DF) (pairs : List (String × String)) (i : Nat)
    (v : String) (hv : v ∈ REQUIRED_VARIABLES) :
    getVar (builtRow df pairs i) v = (colFor df pairs v).getD i none := by
  simp only [REQUIRED_VARIABLES, List.mem_cons, List.not_mem_nil, or_false] at hv
  rcases hv with rfl | rfl | rfl | rfl | rfl | rfl | rfl <;> rfl

/-- C4.  Every sentinel input value (`-9999`, `-99.9`, `-999`, `-99`) in a
resolved variable column is replaced by null in the normalized output; the
sentinel pass operates on already-coerced numeric cells (it maps `none` to
`none` and touches nothing but sentinels), i.e. it is a pass distinct from and
after the generic numeric-coercion-to-null of parsing. -/
theorem sentinel_replacement :
    (∀ x : ℚ, x ∈ MISSING_CODES → replaceSentinels (some x) = none) ∧
    replaceSentinels (none : Option ℚ) = none ∧
    (∀ v : Option ℚ, replaceSentinels v = v ∨ replaceSentinels v = none) ∧
    (∀ (df : DF) (fmt : Fmt) (s : NormSeries) (v c : String) (i : Nat) (d : ℤ)
      (x : ℚ),
      extractVariables df fmt = .ok s →
      df.index.Nodup →
      v ∈ REQUIRED_VARIABLES →
      findCol df.cols (possibleNames (mappingFor fmt) v) = some c →
      df.index.get? i = some d →
      (colValues df c).getD i none = some x →
      x ∈ MISSING_CODES →
      getVar (rowAt s d) v = none) := by
  refine ⟨?_, rfl, ?_, ?_⟩
  · intro x hx
    simp [replaceSentinels, hx]
  · intro v
    cases v with
    | none => left; rfl
    | some q =>
      by_cases hq : q ∈ MISSING_CODES
      · right
        simp [replaceSentinels, hq]
      · left
        simp [replaceSentinels, hq]
  · intro df fmt s v c i d x hok hnd hv hfc hget hcell hx
    obtain ⟨pairs, hres, _⟩ := extract_ok_eq df fmt s hok
    have hall : ∀ w ∈ REQUIRED_VARIABLES,
        (possibleNames (mappingFor fmt) w).isEmpty = false := by
      cases fmt <;> decide
    have hrow : rowAt s d = builtRow df pairs i :=
      rowAt_extract_source df fmt s pairs i d hres hok hnd hget
    rw [hrow, getVar_builtRow df pairs i v hv]
    unfold colFor
    rw [resolveList_find_eq df.cols (mappingFor fmt) REQUIRED_VARIABLES pairs v c
      hres hfc hv (hall v hv)]
    show (applySentinels (colValues df c)).getD i none = none
    rw [applySentinels_eq]
    have h2 : (List.map replaceSentinels (colValues df c)).getD i none
        = replaceSentinels ((colValues df c).getD i none) :=
      getD_map_fixed (colValues df c) replaceSentinels none i
    rw [h2, hcell]
    simp [replaceSentinels, hx]

/-- Witness for C4 on `sentinelDF`: the `-9999` rain cell and the `-99.9`
max-temperature cell are both null in the normalized series. -/
theorem sentinel_replacement_witness :
    getVar (rowAt sentinelSeries 0) "daily_rain" = none ∧
    getVar (rowAt sentinelSeries 0) "max_temp" = none := by
  refine ⟨?_, ?_⟩
  · exact sentinel_replacement.2.2.2 sentinelDF .fao56 sentinelSeries "daily_rain"
      "Rain" 0 0 (-9999) (by decide) (by decide) (by decide) (by decide)
      (by decide) (by decide) (by decide)
  · exact sentinel_replacement.2.2.2 sentinelDF .fao56 sentinelSeries "max_temp"
      "T.Max" 0 0 neg99_9 (by decide) (by decide) (by decide) (by decide)
      (by decide) (by decide) (by decide)

/-! ## C6: the code column -/

theorem zfill_length (w : Nat) (s : String) : (zfill w s).length = max w s.length := by
  simp only [zfill]
  have hd : s.length = s.data.length := rfl
  split
  case isTrue h =>
    rw [hd]
    omega
  case isFalse h =>
    split
    case h_1 rest heq =>
      have hlen : s.length = rest.length + 1 := by rw [hd, heq]; rfl
      show ('-' :: (List.replicate (w - s.data.length) '0' ++ rest)).length = _
      simp only [List.length_cons, List.length_append, List.length_replicate]
      rw [← hd]
      omega
    case h_2 rest heq =>
      have hlen : s.length = rest.length + 1 := by rw [hd, heq]; rfl
      show ('+' :: (List.replicate (w - s.data.length) '0' ++ rest)).length = _
      simp only [List.length_cons, List.length_append, List.length_replicate]
      rw [← hd]
      omega
    case h_3 =>
      show (List.replicate (w - s.data.length) '0' ++ s.data).length = _
      simp only [List.length_append, List.length_replicate]
      rw [← hd]
      omega

theorem code_builtRow (df : DF) (pairs : List (String × String)) (i : Nat) :
    (builtRow df pairs i).code = (codeVals df).getD i none := rfl

/-- C6 (amended).  The code column is resolved by case-insensitive substring
match on `"code"`.  When found, each source-date row's code is the cell's
string form zero-left-padded to *at least* six characters (`zfill` pads to a
minimum width, so the result has exactly six characters only when the string
form has at most six); when absent, each source-date row's code is the literal
default `"222222"`.  Rows inserted by the calendar reindex carry a null code
in either case. -/
theorem code_column_resolution :
    (∀ s : String, (zfill 6 s).length = max 6 s.length) ∧
    (∀ (df : DF) (fmt : Fmt) (s : NormSeries) (c : String) (i : Nat) (d : ℤ),
      extractVariables df fmt = .ok s →
      df.index.Nodup →
      codeColumn df.cols = some c →
      df.index.get? i = some d →
      i < df.rows.length →
      (rowAt s d).code = some (zfill 6 (pyCellStr ((colValues df c).getD i none)))) ∧
    (∀ (df : DF) (fmt : Fmt) (s : NormSeries) (i : Nat) (d : ℤ),
      extractVariables df fmt = .ok s →
      df.index.Nodup →
      codeColumn df.cols = none →
      df.index.get? i = some d →
      (rowAt s d).code = some "222222") ∧
    (∀ (df : DF) (fmt : Fmt) (s : NormSeries) (lo hi d : ℤ),
      extractVariables df fmt = .ok s →
      df.index.min? = some lo → df.index.max? = some hi →
      lo ≤ d → d ≤ hi → d ∉ df.index →
      (rowAt s d).code = none) := by
  refine ⟨fun s => zfill_length 6 s, ?_, ?_, ?_⟩
  · intro df fmt s c i d hok hnd hcode hget hrows
    obtain ⟨pairs, hres, _⟩ := extract_ok_eq df fmt s hok
    rw [rowAt_extract_source df fmt s pairs i d hres hok hnd hget, code_builtRow]
    unfold codeVals
    rw [hcode]
    have hlen : i < (colValues df c).length := by
      unfold colValues
      cases hj : df.cols.findIdx? (fun c' => c' == c) with
      | none =>
        exfalso
        unfold codeColumn at hcode
        have hmem := List.mem_of_find?_eq_some hcode
        have : df.cols.findIdx? (fun c' => c' == c) ≠ none := by
          rw [Ne, List.findIdx?_eq_none_iff]
          intro hall
          have := hall c hmem
          simp at this
        exact this hj
      | some j =>
        simpa using hrows
    exact getD_map_of_lt (colValues df c) _ i hlen none none
  · intro df fmt s i d hok hnd hcode hget
    obtain ⟨pairs, hres, _⟩ := extract_ok_eq df fmt s hok
    rw [rowAt_extract_source df fmt s pairs i d hres hok hnd hget, code_builtRow]
    unfold codeVals
    rw [hcode]
    have hlt : i < df.index.length := (List.get?_eq_some.mp hget).1
    exact getD_map_of_lt df.index _ i hlt none 0
  · intro df fmt s lo hi d hok hlo hhi h1 h2 hd
    rw [extract_absent_null df fmt s lo hi d hok hlo hhi h1 h2 hd]
    rfl

/-- C6 counterexample.  A seven-digit code value (`1234567`) yields a
seven-character code string: `zfill(6)` pads to at least six characters, so
the claim's "exactly 6 characters" fails. -/
theorem code_zfill_cex :
    extractVariables bigCodeDF .fao56 = .ok bigCodeSeries ∧
    (rowAt bigCodeSeries 0).code = some "1234567" ∧
    ("1234567" : String).length = 7 := by
  exact ⟨by decide, by decide, by decide⟩

/-- Witness for C6: the found-column case on `bigCodeDF` and the
default-column case on `gapDF` (which has no code column). -/
theorem code_column_resolution_witness :
    (rowAt bigCodeSeries 0).code
      = some (zfill 6 (pyCellStr ((colValues bigCodeDF "Code").getD 0 none))) ∧
    (rowAt gapSeries 0).code = some "222222" := by
  refine ⟨?_, ?_⟩
  · exact code_column_resolution.2.1 bigCodeDF .fao56 bigCodeSeries "Code" 0 0
      (by decide) (by decide) (by decide) (by decide) (by decide)
  · exact code_column_resolution.2.2.1 gapDF .fao56 gapSeries 0 0
      (by decide) (by decide) (by decide) (by decide)

end SILO
